import Mathlib

/-!
# Verification of the Emakia Node fallback classifier and trust aggregator

Shallow embedding of the keyword-pattern severity scorer and the multi-agent
trust aggregator of the `Cerebras/emakia-node` component:

* `agents/toxicityAgent.js` (`ToxicityAgent`)
* `agents/biasAgent.js` (`BiasAgent` and `MisinformationAgent`)
* the `CoordinationAgent` (same repository, file name unknown in this snapshot)
* `classifiers/classifyPost.js` (`classifyPost`)
* the classify route's `calculateOverallRisk`

JavaScript numbers are embedded as exact rationals (`ℚ`); the increments and
thresholds involved (0.3, 0.2, 0.15, 0.8, …) are exactly representable and no
claim hinges on binary floating-point rounding.  The `text` echo field and the
ISO timestamp of each analysis record are omitted (the timestamp is explicitly
excluded by every claim that compares records).
-/

namespace Emakia

/-! ## Tokenisation

The fallback scorers all run `text.toLowerCase().split(/\s+/)` and then test
each token with `word.includes(keyword)`.  `split(/\s+/)` can produce one empty
token when the text starts with whitespace; an empty token never satisfies
`includes` for the (non-empty) table keywords and is never pushed to a match
list, so the embedding drops empty tokens, which preserves every match result.
-/

/-- Split a character list at whitespace, dropping empty pieces.
`acc` holds the current in-progress token, reversed. -/
def splitWSAux : List Char → List Char → List (List Char)
  | [], acc => if acc = [] then [] else [acc.reverse]
  | c :: cs, acc =>
    if c.isWhitespace then
      (if acc = [] then splitWSAux cs [] else acc.reverse :: splitWSAux cs [])
    else splitWSAux cs (c :: acc)

def splitWS (cs : List Char) : List (List Char) := splitWSAux cs []

/-- `text.toLowerCase()` as a character list. -/
def lowerChars (s : String) : List Char := s.data.map Char.toLower

/-- Rebuild a `String` from its characters. -/
def ofChars (cs : List Char) : String := ⟨cs⟩

/-- `text.toLowerCase().split(/\s+/)`, empty tokens dropped (see above). -/
def tokenize (s : String) : List String := (splitWS (lowerChars s)).map ofChars

/-- `needle` occurs in `hay` as a contiguous run. -/
def hasSubstring (hay needle : List Char) : Bool :=
  match hay with
  | [] => needle.isEmpty
  | _ :: t => needle.isPrefixOf hay || hasSubstring t needle

/-- `w.includes(k)`: `k` occurs in `w` as a contiguous substring. -/
def strContainsSub (w k : String) : Bool := hasSubstring w.data k.data

/-- `keywords.some(keyword => word.includes(keyword))`. -/
def tokenMatches (keywords : List String) (w : String) : Bool :=
  keywords.any fun k => strContainsSub w k

/-! ## Data model -/

/-- One per-category match record (`analysis.categories[category]`). -/
structure CategoryMatch where
  score : ℚ
  matchedTokens : List String
  count : Nat
  correction : Option String := none
deriving DecidableEq

/-- One per-concern analysis record.  The JS object stores either an object
(fallback path) or an array of names (remote-parse path) in its single
dynamically-typed `categories` field; the embedding splits that field into
`categories` (object form) and `categoryNames` (array form).  `flagged` stands
for the concern's boolean (`isToxic` / `hasBias` / `hasMisinformation` /
`hasCoordination`) and `aggregateScore` for its score field. -/
structure AnalysisRecord where
  flagged : Bool
  aggregateScore : ℚ
  severity : String
  categories : List (String × CategoryMatch)
  categoryNames : List String := []
  flaggedTokens : List String
  recommendations : List String
  errMsg : Option String := none
deriving DecidableEq

/-! ## Generic fallback scorer core

The four agents' `fallbackAnalysis` bodies are line-for-line identical except
for the pattern table, the per-match increment (0.3 toxicity, 0.2
bias/misinformation, 0.15 coordination), the severity if-chain (textually
repeated in each agent) and the generated recommendations; the core is factored
here once and instantiated per concern.  Source: `toxicityAgent.js` lines
85–143 and the corresponding blocks of the other three agents. -/

/-- The per-category loop: filtered matches, `min(count × inc, 1)` score,
category kept only when it matched (`if (matches.length > 0)`). -/
def categoryEntries (patterns : List (String × List String)) (inc : ℚ)
    (words : List String) : List (String × CategoryMatch) :=
  (patterns.map fun p =>
    let ms := words.filter (tokenMatches p.2)
    (p.1, ({ score := min (inc * ms.length) 1, matchedTokens := ms,
             count := ms.length } : CategoryMatch))).filter
    fun e => e.2.count ≠ 0

/-- The score of one category of `keywords` on `text`, as computed by the
per-category loop (`categoryScore += inc` per matching token, then
`Math.min(categoryScore, 1.0)`). -/
def categoryScore (keywords : List String) (inc : ℚ) (text : String) : ℚ :=
  min (inc * (((tokenize text).filter (tokenMatches keywords)).length : ℚ)) 1

/-- `categoryScores.length > 0 ? Math.min(sum / len, 1.0) : 0`. -/
def aggregateOf (cats : List (String × CategoryMatch)) : ℚ :=
  let scores := cats.map fun c => c.2.score
  if scores.length = 0 then 0 else min (scores.sum / (scores.length : ℚ)) 1

/-- Success path of the shared fallback body, parameterised by the concern's
pattern table, increment and severity if-chain; recommendations are added by
each concern's wrapper. -/
def fallbackCore (patterns : List (String × List String)) (inc : ℚ)
    (sevF : ℚ → String) (text : String) : AnalysisRecord :=
  let words := tokenize text
  let cats := categoryEntries patterns inc words
  let score := aggregateOf cats
  let sev := sevF score
  { flagged := sev != "none"
    aggregateScore := score
    severity := sev
    categories := cats
    flaggedTokens := (cats.map fun c => c.2.matchedTokens).flatten
    recommendations := [] }

/-! ## JS input boundary

`fallbackAnalysis` wraps its body in `try { … } catch`: on a non-string input
`text.toLowerCase()` throws a `TypeError`, which the `catch` converts into the
degraded record `{ error: …, severity: 'error', score 0, flagged false }`.  The
`try` block is embedded as an `Except` computation and the `catch` as the match
below; for a genuine string input the body is a total pure function and cannot
fail. -/

inductive JSInput
  | str (s : String)
  | nonString
deriving DecidableEq

/-- The `try` block of the shared fallback body. -/
def fallbackTry (patterns : List (String × List String)) (inc : ℚ)
    (sevF : ℚ → String) (input : JSInput) : Except String AnalysisRecord :=
  match input with
  | .str s => .ok (fallbackCore patterns inc sevF s)
  | .nonString => .error "text.toLowerCase is not a function"

/-- The `catch` branch's degraded record (`toxicityAgent.js` lines 154–164). -/
def degradedRecord : AnalysisRecord :=
  { flagged := false
    aggregateScore := 0
    severity := "error"
    categories := []
    flaggedTokens := []
    recommendations := []
    errMsg := some "Both API and fallback analysis failed" }

/-- `fallbackAnalysis` across its public boundary: `try` body, with the
`catch` producing the degraded record. -/
def fallbackAnalysisJS (patterns : List (String × List String)) (inc : ℚ)
    (sevF : ℚ → String) (input : JSInput) : AnalysisRecord :=
  match fallbackTry patterns inc sevF input with
  | .ok r => r
  | .error _ => degradedRecord

/-! ## The four concerns

Pattern tables, per-agent severity if-chains (each agent repeats the same
chain textually; they are transcribed separately and proved equal), and the
concern wrappers adding the concern-specific recommendations. -/

/-- `ToxicityAgent.fallbackPatterns` (`toxicityAgent.js` lines 11–18). -/
def toxicityPatterns : List (String × List String) :=
  [("insults", ["stupid", "idiot", "dumb", "fool", "moron", "imbecile",
                "retard", "cretin"]),
   ("hate_speech", ["hate", "racist", "bigot", "nazi", "supremacist",
                    "white power", "black power"]),
   ("violence", ["kill", "murder", "attack", "violence", "weapon", "bomb",
                 "shoot", "stab"]),
   ("profanity", ["fuck", "shit", "damn", "hell", "bitch", "ass", "cunt",
                  "dick", "pussy"]),
   ("threats", ["threaten", "hurt you", "kill you", "attack you",
                "destroy you"]),
   ("harassment", ["harass", "stalk", "bully", "intimidate", "terrorize"])]

/-- `BiasAgent.fallbackPatterns` (`biasAgent.js` lines 11–17). -/
def biasPatterns : List (String × List String) :=
  [("gender_bias", ["women can\x27t", "men are better", "female driver",
                    "male nurse"]),
   ("racial_bias", ["race", "ethnicity", "minority", "stereotype",
                    "prejudice"]),
   ("age_bias", ["old people", "young people", "millennial", "boomer"]),
   ("religious_bias", ["religion", "faith", "atheist", "believer",
                       "heathen"]),
   ("socioeconomic_bias", ["poor", "rich", "wealthy", "poverty",
                           "privilege"])]

/-- `MisinformationAgent.fallbackPatterns` (`biasAgent.js` lines 269–275). -/
def misinfoPatterns : List (String × List String) :=
  [("conspiracy_theories", ["conspiracy", "cover up", "secret agenda",
                            "hidden truth"]),
   ("pseudoscience", ["quantum healing", "energy crystals",
                      "alternative facts"]),
   ("clickbait", ["you won\x27t believe", "shocking truth",
                  "number one secret"]),
   ("sensationalism", ["breaking news", "urgent warning", "must see"]),
   ("unverified_claims", ["studies show", "research proves",
                          "experts agree"])]

/-- `CoordinationAgent.fallbackPatterns`. -/
def coordinationPatterns : List (String × List String) :=
  [("bot_like_behavior", ["automated", "bot", "script", "program",
                          "algorithm"]),
   ("coordinated_campaigns", ["campaign", "movement", "initiative", "drive",
                              "push"]),
   ("manipulation_tactics", ["astroturfing", "brigading",
                             "vote manipulation"]),
   ("amplification", ["share this", "retweet", "repost", "forward",
                      "viral"]),
   ("echo_chambers", ["echo chamber", "bubble", "filter", "algorithm"])]

/-- Severity if-chain of `ToxicityAgent.fallbackAnalysis` (lines 131–143). -/
def toxicitySeverity (s : ℚ) : String :=
  if s ≥ 0.8 then "critical"
  else if s ≥ 0.6 then "high"
  else if s ≥ 0.4 then "medium"
  else if s ≥ 0.2 then "low"
  else "none"

/-- Severity if-chain of `BiasAgent.fallbackAnalysis` (lines 130–142). -/
def biasSeverity (s : ℚ) : String :=
  if s ≥ 0.8 then "critical"
  else if s ≥ 0.6 then "high"
  else if s ≥ 0.4 then "medium"
  else if s ≥ 0.2 then "low"
  else "none"

/-- Severity if-chain of `MisinformationAgent.fallbackAnalysis`
(lines 497–509). -/
def misinfoSeverity (s : ℚ) : String :=
  if s ≥ 0.8 then "critical"
  else if s ≥ 0.6 then "high"
  else if s ≥ 0.4 then "medium"
  else if s ≥ 0.2 then "low"
  else "none"

/-- Severity if-chain of `CoordinationAgent.fallbackAnalysis`
(lines 198–211). -/
def coordinationSeverity (s : ℚ) : String :=
  if s ≥ 0.8 then "critical"
  else if s ≥ 0.6 then "high"
  else if s ≥ 0.4 then "medium"
  else if s ≥ 0.2 then "low"
  else "none"

/-- `ToxicityAgent.fallbackAnalysis` success path, recommendations included
(lines 146–151: generic string when flagged, plus an insults-specific one when
the `insults` category matched). -/
def toxicityFallback (text : String) : AnalysisRecord :=
  let r := fallbackCore toxicityPatterns 0.3 toxicitySeverity text
  { r with recommendations :=
      if r.flagged then
        ["Toxic content detected. Consider moderation."] ++
        (if (r.categories.lookup "insults").isSome then
          ["Personal insults detected. Review for community guidelines."]
         else [])
      else [] }

/-- `BiasAgent.fallbackAnalysis` success path (recommendation at
lines 144–147). -/
def biasFallback (text : String) : AnalysisRecord :=
  let r := fallbackCore biasPatterns 0.2 biasSeverity text
  { r with recommendations :=
      if r.flagged then
        ["Bias detected. Consider using more inclusive language."]
      else [] }

/-- `CoordinationAgent.fallbackAnalysis` success path (recommendation at
lines 213–216). -/
def coordinationFallback (text : String) : AnalysisRecord :=
  let r := fallbackCore coordinationPatterns 0.15 coordinationSeverity text
  { r with recommendations :=
      if r.flagged then
        ["Coordinated behavior detected. Monitor for inauthentic activity."]
      else [] }

/-! ## Misinformation fallback with factual-error override

`MisinformationAgent.fallbackAnalysis` (`biasAgent.js` lines 431–530) first
scans the literal `factualErrors` table against the whole lower-cased text;
each hit forces `hasMisinformation = true`, raises `misinformationScore` with
`Math.max` (a value the later mean computation at lines 491–494 overwrites
unconditionally), overwrites the factual category's record (so the last hit of
a category wins) and pushes a correction recommendation.  The pattern loop then
runs as in the other agents, and the generic recommendation is pushed only when
no factual error was found. -/

/-- `MisinformationAgent.factualErrors` (`biasAgent.js` lines 278–295):
category → list of (literal phrase, corrected statement, fixed score). -/
def factualErrors : List (String × List (String × String × ℚ)) :=
  [("geography",
    [("paris is in spain", "Paris is in France", 0.9),
     ("london is in france", "London is in England/UK", 0.9),
     ("tokyo is in china", "Tokyo is in Japan", 0.9),
     ("moscow is in ukraine", "Moscow is in Russia", 0.9),
     ("berlin is in austria", "Berlin is in Germany", 0.9)]),
   ("science",
    [("earth is flat", "Earth is spherical", 0.95),
     ("vaccines cause autism", "No scientific evidence supports this claim",
      0.9),
     ("climate change is a hoax",
      "Climate change is supported by scientific consensus", 0.9)]),
   ("history",
    [("world war 2 ended in 1944", "WW2 ended in 1945", 0.9),
     ("nixon was president in 1960", "Nixon was president 1969-1974", 0.8)])]

/-- The factual-error phrases of one table category that the lower-cased text
contains, in table order. -/
def factualHits (entries : List (String × String × ℚ)) (lower : List Char) :
    List (String × String × ℚ) :=
  entries.filter fun e => hasSubstring lower e.1.data

/-- The factual categories of the record: one entry per category with a hit;
repeated assignment in the source means the last hit of a category provides
the stored score, single-phrase match list and correction. -/
def misinfoFactualCats (lower : List Char) : List (String × CategoryMatch) :=
  factualErrors.filterMap fun fc =>
    match (factualHits fc.2 lower).getLast? with
    | none => none
    | some e => some (fc.1, { score := e.2.2, matchedTokens := [e.1],
                              count := 1, correction := some e.2.1 })

/-- All factual hits across categories, in table order (each one was pushed to
`flaggedPhrases` and produced a correction recommendation). -/
def misinfoFactualHitList (lower : List Char) : List (String × String × ℚ) :=
  factualErrors.flatMap fun fc => factualHits fc.2 lower

/-- Generic misinformation recommendation (line 514). -/
def misinfoGenericRec : String :=
  "Misinformation detected. Verify claims with reliable sources."

/-- `MisinformationAgent.fallbackAnalysis` success path. -/
def misinfoFallback (text : String) : AnalysisRecord :=
  let lower := lowerChars text
  let words := tokenize text
  let fcats := misinfoFactualCats lower
  let pcats := categoryEntries misinfoPatterns 0.2 words
  let cats := fcats ++ pcats
  let score := aggregateOf cats
  let sev := misinfoSeverity score
  let factualFound := !fcats.isEmpty
  let flagged := factualFound || (sev != "none")
  { flagged := flagged
    aggregateScore := score
    severity := sev
    categories := cats
    flaggedTokens :=
      ((misinfoFactualHitList lower).map fun e => e.1) ++
      (pcats.map fun c => c.2.matchedTokens).flatten
    recommendations :=
      ((misinfoFactualHitList lower).map fun e =>
        "Factual error detected: " ++ e.2.1) ++
      (if flagged && !factualFound then [misinfoGenericRec] else []) }

/-- Misinformation fallback across the JS `try`/`catch` boundary. -/
def misinfoFallbackJS (input : JSInput) : AnalysisRecord :=
  match input with
  | .str s => misinfoFallback s
  | .nonString => degradedRecord

/-! ## Optional-model analysis wrapper

`ToxicityAgent.analyze` (`toxicityAgent.js` lines 26–78): with no API key it
delegates directly to `fallbackAnalysis`; otherwise it makes exactly one
`fetch` — a non-ok HTTP status throws, a transport error rejects, and either
lands in the single `catch`, which delegates to `fallbackAnalysis` (no retry).
Only a completed reply reaches `parseAIResponse`.  The remote boundary is
embedded as an oracle `RemoteOutcome` describing how that one call ends, and
the reply's regex-extract + `JSON.parse` step as the pre-parsed `AIReply`
(string-level JSON parsing is outside the scorer). -/

/-- The scoring fields the remote model's JSON reply may carry
(`parsed.isToxic` etc.); `none` embeds an absent / undefined field. -/
structure ParsedFields where
  isToxic : Option Bool := none
  toxicityScore : Option ℚ := none
  severity : Option String := none
  categories : Option (List String) := none
  flaggedWords : Option (List String) := none
  recommendations : Option (List String) := none
deriving DecidableEq

/-- Outcome of the reply-parsing step: the `/\{[\s\S]*\}/` regex found no
JSON, `JSON.parse` threw, or a parsed object. -/
inductive AIReply
  | noJson
  | badJson
  | parsed (p : ParsedFields)
deriving DecidableEq

/-- `ToxicityAgent.parseAIResponse` (lines 202–234): on success every field is
copied with a `|| falsy-default`; the parse-failure branch returns the error
record with severity "error" and `flagged` (`isToxic`) false.  The model's
`categories` array lands in the array-shaped field. -/
def parseAIResponse (reply : AIReply) : AnalysisRecord :=
  match reply with
  | .parsed p =>
      { flagged := p.isToxic.getD false
        aggregateScore := p.toxicityScore.getD 0
        severity := p.severity.getD "none"
        categories := []
        categoryNames := p.categories.getD []
        flaggedTokens := p.flaggedWords.getD []
        recommendations := p.recommendations.getD []
        errMsg := none }
  | _ =>
      { flagged := false
        aggregateScore := 0
        severity := "error"
        categories := []
        flaggedTokens := []
        recommendations := []
        errMsg := some "Failed to parse AI response" }

/-- How the single remote call of `analyze` ends. -/
inductive RemoteOutcome
  | transportError
  | httpError (status : Nat)
  | completion (reply : AIReply)
deriving DecidableEq

/-- The remote-call environment of one `analyze` invocation: whether
`CEREBRAS_API_KEY` is configured, and the oracle for the one `fetch`. -/
structure Env where
  apiKeyPresent : Bool
  remote : RemoteOutcome
deriving DecidableEq

/-- `ToxicityAgent.analyze`: no key → fallback; transport error or non-ok
status → the `catch` delegates to the fallback (at most one remote attempt,
no retry — the embedding consults the `remote` oracle at most once); a
completed reply is parsed. -/
def analyze (env : Env) (text : String) : AnalysisRecord :=
  if !env.apiKeyPresent then toxicityFallback text
  else
    match env.remote with
    | .completion reply => parseAIResponse reply
    | _ => toxicityFallback text

/-! ## Multi-agent aggregator (`classifyPost`)

`classifiers/classifyPost.js` combines the five analyzer results.  The simple
synchronous analyzer modules it `require`s (returning `{score, flagged}`
records) are not present in this snapshot — only the class-based agents are —
so the analyzers are supplied as function parameters, modelled from the spec
(§4.3/§6: each concern yields an aggregate score and a flagged bit for the
body text).  `trustScore.toFixed(2)` rounds to 2 decimals (the resulting
string is coerced back to a number by `Math.min`), then `Math.max(0,
Math.min(1, ·))` clamps. -/

/-- `{score, flagged}` result of one concern analyzer, as `classifyPost`
consumes it. -/
structure ConcernResult where
  score : ℚ
  flagged : Bool
deriving DecidableEq

structure Post where
  title : String
  content : String
  id : Option String := none

structure ClassificationResult where
  id : Option String
  title : String
  trustScore : ℚ
  flaggedCategories : List String
deriving DecidableEq

/-- `x.toFixed(2)` on an exact rational: round to 2 decimal places. -/
def round2 (q : ℚ) : ℚ := (round (q * 100) : ℤ) / 100

/-- `Math.max(0, Math.min(1, q))`. -/
def clamp01 (q : ℚ) : ℚ := max 0 (min 1 q)

/-- `classifyPost` (`classifyPost.js` lines 7–51), analyzers as parameters. -/
def classifyPost (biasA coordA misA toxA advA : String → ConcernResult)
    (post : Post) : ClassificationResult :=
  let bias := biasA post.content
  let coordination := coordA post.content
  let misinformation := misA post.content
  let toxicity := toxA post.content
  let advancedToxicity := advA post.content
  let trustScore := 1 -
    (bias.score * 0.2 + coordination.score * 0.2 +
     misinformation.score * 0.3 + toxicity.score * 0.15 +
     advancedToxicity.score * 0.15)
  { id := post.id
    title := post.title
    trustScore := clamp01 (round2 trustScore)
    flaggedCategories :=
      (if bias.flagged then ["Bias"] else []) ++
      (if coordination.flagged then ["Coordination"] else []) ++
      (if misinformation.flagged then ["Misinformation"] else []) ++
      (if toxicity.flagged || advancedToxicity.flagged then ["Toxicity"]
       else []) }

/-! ## Overall-risk classifier -/

/-- The issue-count summary built by the classify route. -/
structure Summary where
  criticalIssues : Nat
  highIssues : Nat
  mediumIssues : Nat
  lowIssues : Nat
deriving DecidableEq

/-- `calculateOverallRisk` (classify route, lines 255–267). -/
def calculateOverallRisk (s : Summary) : String :=
  if s.criticalIssues > 0 then "critical"
  else if s.highIssues > 0 then "high"
  else if s.mediumIssues > 0 then "medium"
  else if s.lowIssues > 0 then "low"
  else "none"

/-! ## Evaluation companions

`Rat` arithmetic does not reduce inside the kernel, so concrete runs of the
scorer are evaluated in two stages: the purely discrete matching structure
(`decide`-able, below) and then the rational arithmetic (`norm_num`). -/

/-- The discrete part of the per-category loop: category name and matched
tokens of every category that matched. -/
def categoryHits (patterns : List (String × List String))
    (words : List String) : List (String × List String) :=
  (patterns.map fun p => (p.1, words.filter (tokenMatches p.2))).filter
    fun e => !e.2.isEmpty

/-- `text` followed by `n` further whitespace-separated copies of `kw`. -/
def appendOcc (text kw : String) : Nat → String
  | 0 => text
  | n + 1 => appendOcc (text ++ " " ++ kw) kw n

/-! ## Helper lemmas -/

theorem getLast?_mem : ∀ {α : Type} {l : List α} {a : α},
    l.getLast? = some a → a ∈ l
  | _, [], _, h => by simp [List.getLast?] at h
  | _, [x], _, h => by
      simp [List.getLast?] at h
      simp [h]
  | _, x :: y :: t, a, h => by
      rw [List.getLast?_cons_cons] at h
      exact List.mem_cons_of_mem _ (getLast?_mem h)

theorem getLast?_of_ne_nil {α : Type} {l : List α} (h : l ≠ []) :
    ∃ a, l.getLast? = some a := by
  cases l with
  | nil => exact absurd rfl h
  | cons x t => exact ⟨(x :: t).getLast (by simp), List.getLast?_eq_getLast _ _⟩

theorem mul_length_le_sum (l : List ℚ) (c : ℚ) (h : ∀ x ∈ l, c ≤ x) :
    c * l.length ≤ l.sum := by
  induction l with
  | nil => simp
  | cons a t ih =>
    have ht := ih fun x hx => h x (List.mem_cons_of_mem _ hx)
    have ha := h a (List.mem_cons_self a t)
    simp only [List.length_cons, List.sum_cons]
    push_cast
    linarith

/-- Unpack membership in the per-category loop's output. -/
theorem mem_categoryEntries {patterns : List (String × List String)} {inc : ℚ}
    {words : List String} {e : String × CategoryMatch}
    (h : e ∈ categoryEntries patterns inc words) :
    ∃ p ∈ patterns, e.1 = p.1 ∧
      e.2.matchedTokens = words.filter (tokenMatches p.2) ∧
      e.2.count = e.2.matchedTokens.length ∧
      e.2.score = min (inc * e.2.count) 1 ∧
      e.2.count ≠ 0 ∧ e.2.correction = none := by
  unfold categoryEntries at h
  rw [List.mem_filter] at h
  obtain ⟨hmem, hcount⟩ := h
  rw [List.mem_map] at hmem
  obtain ⟨p, hp, rfl⟩ := hmem
  exact ⟨p, hp, rfl, rfl, rfl, rfl, by simpa using hcount, rfl⟩

/-- Every kept category's score lies in `[min(inc,1), 1]` when `inc ≥ 0`. -/
theorem categoryEntries_score_bounds {patterns : List (String × List String)}
    {inc : ℚ} (hinc : 0 ≤ inc) {words : List String}
    {e : String × CategoryMatch} (h : e ∈ categoryEntries patterns inc words) :
    0 ≤ e.2.score ∧ e.2.score ≤ 1 ∧ min inc 1 ≤ e.2.score := by
  obtain ⟨p, _, _, _, _, hscore, hne, _⟩ := mem_categoryEntries h
  have h1 : (1 : ℚ) ≤ (e.2.count : ℚ) := by exact_mod_cast Nat.one_le_iff_ne_zero.mpr hne
  have hmul : inc ≤ inc * e.2.count := le_mul_of_one_le_right hinc h1
  refine ⟨?_, ?_, ?_⟩
  · rw [hscore]
    exact le_min (mul_nonneg hinc (by positivity)) zero_le_one
  · rw [hscore]; exact min_le_right _ _
  · rw [hscore]; exact min_le_min hmul le_rfl

theorem aggregateOf_bounds {cats : List (String × CategoryMatch)}
    (h0 : ∀ e ∈ cats, 0 ≤ e.2.score) :
    0 ≤ aggregateOf cats ∧ aggregateOf cats ≤ 1 := by
  simp only [aggregateOf]
  split_ifs with hlen
  · exact ⟨le_refl 0, zero_le_one⟩
  · have hsum : 0 ≤ (cats.map fun c => c.2.score).sum := by
      apply List.sum_nonneg
      intro x hx
      rw [List.mem_map] at hx
      obtain ⟨c, hc, rfl⟩ := hx
      exact h0 c hc
    have hl : (0 : ℚ) ≤ ((cats.map fun c => c.2.score).length : ℚ) := by positivity
    exact ⟨le_min (div_nonneg hsum hl) zero_le_one, min_le_right _ _⟩

/-- When every kept category scores at least `c ∈ [0,1]` and at least one
category exists, the clamped mean is at least `c`. -/
theorem aggregateOf_lower {cats : List (String × CategoryMatch)} {c : ℚ}
    (hc1 : c ≤ 1) (hne : cats ≠ [])
    (h : ∀ e ∈ cats, c ≤ e.2.score) :
    c ≤ aggregateOf cats := by
  simp only [aggregateOf]
  have hlen : (cats.map fun x : String × CategoryMatch => x.2.score).length ≠ 0 := by
    intro h0
    exact hne (List.map_eq_nil_iff.mp (List.length_eq_zero.mp h0))
  split_ifs with h0
  · exact absurd h0 hlen
  · have hlenpos : (0 : ℚ) < ((cats.map fun x => x.2.score).length : ℚ) := by
      exact_mod_cast Nat.pos_of_ne_zero hlen
    refine le_min ?_ hc1
    rw [le_div_iff₀ hlenpos]
    have := mul_length_le_sum (cats.map fun x => x.2.score) c ?_
    · linarith
    · intro x hx
      rw [List.mem_map] at hx
      obtain ⟨e, he, rfl⟩ := hx
      exact h e he

/-- Unpack membership in the misinformation factual-category list. -/
theorem mem_misinfoFactualCats {lower : List Char} {e : String × CategoryMatch}
    (h : e ∈ misinfoFactualCats lower) :
    ∃ fc ∈ factualErrors, ∃ en ∈ fc.2,
      e = (fc.1, { score := en.2.2, matchedTokens := [en.1], count := 1,
                   correction := some en.2.1 }) ∧
      hasSubstring lower en.1.data = true := by
  unfold misinfoFactualCats at h
  rw [List.mem_filterMap] at h
  obtain ⟨fc, hfc, hmatch⟩ := h
  cases hlast : (factualHits fc.2 lower).getLast? with
  | none => rw [hlast] at hmatch; simp at hmatch
  | some en =>
    rw [hlast] at hmatch
    simp only [Option.some.injEq] at hmatch
    have hin : en ∈ factualHits fc.2 lower := getLast?_mem hlast
    unfold factualHits at hin
    rw [List.mem_filter] at hin
    exact ⟨fc, hfc, en, hin.1, hmatch.symm, by simpa using hin.2⟩

/-- Every factual-error table score lies in `[0.8, 1]`. -/
theorem factualErrors_score_bounds :
    ∀ fc ∈ factualErrors, ∀ en ∈ fc.2,
      (0.8 : ℚ) ≤ en.2.2 ∧ en.2.2 ≤ 1 := by
  intro fc hfc
  fin_cases hfc <;> intro en hen <;> fin_cases hen <;>
    exact ⟨by norm_num, by norm_num⟩

/-- Unpack membership in the flattened factual hit list. -/
theorem mem_misinfoFactualHitList {lower : List Char} {e : String × String × ℚ}
    (h : e ∈ misinfoFactualHitList lower) :
    ∃ fc ∈ factualErrors, e ∈ fc.2 ∧ hasSubstring lower e.1.data = true := by
  unfold misinfoFactualHitList factualHits at h
  rw [List.mem_flatMap] at h
  obtain ⟨fc, hfc, hmem⟩ := h
  rw [List.mem_filter] at hmem
  exact ⟨fc, hfc, hmem.1, by simpa using hmem.2⟩

/-- No correction recommendation equals the generic misinformation
recommendation (checked against the whole table). -/
theorem factualRec_ne_generic :
    ∀ fc ∈ factualErrors, ∀ en ∈ fc.2,
      ("Factual error detected: " ++ en.2.1) ≠ misinfoGenericRec := by decide

/-- When any hit exists for a factual category, that category appears in
`misinfoFactualCats` with the last hit's fixed table score. -/
theorem misinfoFactualCats_entry {lower : List Char}
    {fc : String × List (String × String × ℚ)} {en : String × String × ℚ}
    (hfc : fc ∈ factualErrors) (hen : en ∈ fc.2)
    (hsub : hasSubstring lower en.1.data = true) :
    ∃ cm : CategoryMatch, (fc.1, cm) ∈ misinfoFactualCats lower ∧
      ∃ en2 ∈ fc.2, cm.score = en2.2.2 := by
  have hne : factualHits fc.2 lower ≠ [] := by
    intro hnil
    have : en ∈ factualHits fc.2 lower := by
      unfold factualHits
      rw [List.mem_filter]
      exact ⟨hen, by simpa using hsub⟩
    rw [hnil] at this
    simp at this
  obtain ⟨last, hlast⟩ := getLast?_of_ne_nil hne
  have hlastmem : last ∈ factualHits fc.2 lower := getLast?_mem hlast
  have hlastfc : last ∈ fc.2 := by
    unfold factualHits at hlastmem
    exact (List.mem_filter.mp hlastmem).1
  refine ⟨{ score := last.2.2, matchedTokens := [last.1], count := 1,
            correction := some last.2.1 }, ?_, last, hlastfc, rfl⟩
  unfold misinfoFactualCats
  rw [List.mem_filterMap]
  exact ⟨fc, hfc, by rw [hlast]⟩

/-- `categoryEntries` is `categoryHits` decorated with scores. -/
theorem categoryEntries_eq_hits (patterns : List (String × List String))
    (inc : ℚ) (words : List String) :
    categoryEntries patterns inc words =
      (categoryHits patterns words).map fun e =>
        (e.1, { score := min (inc * e.2.length) 1, matchedTokens := e.2,
                count := e.2.length }) := by
  induction patterns with
  | nil => rfl
  | cons p ps ih =>
    unfold categoryEntries categoryHits at ih ⊢
    simp only [List.map_cons, List.filter_cons]
    cases hms : words.filter (tokenMatches p.2) with
    | nil => simpa [hms] using ih
    | cons a t => simpa [hms] using ih

/-- A score of at least 0.2 lands in a non-"none" severity bucket. -/
theorem misinfoSeverity_ne_none {s : ℚ} (h : 0.2 ≤ s) :
    misinfoSeverity s ≠ "none" := by
  unfold misinfoSeverity
  split_ifs with h1 h2 h3 <;> decide

theorem strData_append (a b : String) : (a ++ b).data = a.data ++ b.data := by
  cases a
  cases b
  rfl

theorem lowerChars_append (a b : String) :
    lowerChars (a ++ b) = lowerChars a ++ lowerChars b := by
  unfold lowerChars
  rw [strData_append, List.map_append]

theorem splitWSAux_append (a b : List Char) (acc : List Char) :
    splitWSAux (a ++ ' ' :: b) acc = splitWSAux a acc ++ splitWS b := by
  induction a generalizing acc with
  | nil =>
    show splitWSAux (' ' :: b) acc = splitWSAux [] acc ++ splitWS b
    rw [splitWSAux, splitWSAux]
    have hws : (' ').isWhitespace = true := by decide
    rw [if_pos hws]
    by_cases hacc : acc = []
    · rw [if_pos hacc, if_pos hacc, List.nil_append]
      rfl
    · rw [if_neg hacc, if_neg hacc, List.singleton_append]
      rfl
  | cons c cs ih =>
    show splitWSAux (c :: (cs ++ ' ' :: b)) acc = splitWSAux (c :: cs) acc ++ splitWS b
    rw [splitWSAux, splitWSAux]
    by_cases hw : c.isWhitespace
    · rw [if_pos hw, if_pos hw]
      by_cases hacc : acc = []
      · rw [if_pos hacc, if_pos hacc, ih]
      · rw [if_neg hacc, if_neg hacc, ih, List.cons_append]
    · rw [if_neg hw, if_neg hw, ih]

/-- Splitting on whitespace distributes over a whitespace-separated
concatenation. -/
theorem tokenize_append_sep (a b : String) :
    tokenize (a ++ " " ++ b) = tokenize a ++ tokenize b := by
  unfold tokenize
  have h1 : lowerChars (a ++ " " ++ b) = lowerChars a ++ ' ' :: lowerChars b := by
    rw [lowerChars_append, lowerChars_append]
    have h2 : lowerChars " " = [' '] := by decide
    rw [h2, List.append_assoc, List.singleton_append]
  rw [h1]
  show (splitWSAux (lowerChars a ++ ' ' :: lowerChars b) []).map ofChars = _
  rw [splitWSAux_append]
  unfold splitWS
  rw [List.map_append]

/-- One appended batch never lowers a category score. -/
theorem categoryScore_le_append (keywords : List String) (inc : ℚ)
    (hinc : 0 ≤ inc) (text extra : String) :
    categoryScore keywords inc text ≤
      categoryScore keywords inc (text ++ " " ++ extra) := by
  unfold categoryScore
  rw [tokenize_append_sep, List.filter_append, List.length_append]
  apply min_le_min _ le_rfl
  apply mul_le_mul_of_nonneg_left _ hinc
  push_cast
  linarith [Nat.zero_le ((tokenize extra).filter (tokenMatches keywords)).length]

/-- The misinformation fallback keeps the flagged bit aligned with severity:
a factual-error hit guarantees a kept category scoring at least 0.2, so the
clamped mean is at least 0.2 and the severity if-chain leaves "none". -/
theorem misinfo_flagged_iff (text : String) :
    (misinfoFallback text).flagged = true ↔
      (misinfoFallback text).severity ≠ "none" := by
  simp only [misinfoFallback]
  constructor
  · intro hf
    simp only [Bool.or_eq_true] at hf
    rcases hf with hfa | hs
    · apply misinfoSeverity_ne_none
      apply aggregateOf_lower (by norm_num)
      · intro hnil
        rw [Bool.not_eq_eq_eq_not, Bool.not_true] at hfa
        rw [List.append_eq_nil] at hnil
        rw [hnil.1] at hfa
        simp at hfa
      · intro e he
        rcases List.mem_append.mp he with hmem | hmem
        · obtain ⟨fc, hfc, en, hen, heq, -⟩ := mem_misinfoFactualCats hmem
          have hb := (factualErrors_score_bounds fc hfc en hen).1
          rw [heq]
          dsimp only
          linarith
        · have := (categoryEntries_score_bounds (by norm_num : (0:ℚ) ≤ 0.2) hmem).2.2
          have hm : min (0.2:ℚ) 1 = 0.2 := by norm_num
          linarith [hm ▸ this]
    · exact bne_iff_ne.mp hs
  · intro hs
    simp only [Bool.or_eq_true]
    exact Or.inr (bne_iff_ne.mpr hs)

/-! ## Claims -/

/-- C1: `classifyPost` returns a trust score of
1 − (bias·0.2 + coordination·0.2 + misinformation·0.3 + toxicity·0.15 +
advancedToxicity·0.15), rounded to 2 decimals and clamped to [0,1]; in
particular, with only the misinformation concern at score 1.0 and all others
at 0 the trust score is 0.70. -/
theorem claim_C1 :
    (∀ (biasA coordA misA toxA advA : String → ConcernResult) (post : Post),
      (classifyPost biasA coordA misA toxA advA post).trustScore =
        clamp01 (round2 (1 -
          (0.2 * (biasA post.content).score + 0.2 * (coordA post.content).score +
           0.3 * (misA post.content).score + 0.15 * (toxA post.content).score +
           0.15 * (advA post.content).score)))) ∧
    (classifyPost (fun _ => ⟨0, false⟩) (fun _ => ⟨0, false⟩) (fun _ => ⟨1, true⟩)
      (fun _ => ⟨0, false⟩) (fun _ => ⟨0, false⟩)
      { title := "t", content := "c" }).trustScore = 0.70 := by
  constructor
  · intro bA cA mA tA aA post
    simp only [classifyPost]
    ring_nf
  · simp only [classifyPost]
    norm_num [clamp01, round2, round_eq]

/-- C2: for every input (strings, including empty and whitespace-only ones,
and non-string values) and every concern pattern table with a nonnegative
increment, the fallback scorer is total across its public boundary (it is a
function into `AnalysisRecord`, never an exception) and its aggregate score
lies in [0,1]; when the try-block fails internally the result is the degraded
record with severity "error" and an error message. -/
theorem claim_C2 (patterns : List (String × List String)) (inc : ℚ)
    (sevF : ℚ → String) (input : JSInput) (hinc : 0 ≤ inc) :
    (0 ≤ (fallbackAnalysisJS patterns inc sevF input).aggregateScore ∧
     (fallbackAnalysisJS patterns inc sevF input).aggregateScore ≤ 1) ∧
    (∀ e, fallbackTry patterns inc sevF input = .error e →
      (fallbackAnalysisJS patterns inc sevF input).severity = "error" ∧
      (fallbackAnalysisJS patterns inc sevF input).errMsg ≠ none) := by
  cases input with
  | nonString =>
    refine ⟨⟨le_refl 0, zero_le_one⟩, fun e _ =>
      ⟨rfl, by simp [fallbackAnalysisJS, fallbackTry, degradedRecord]⟩⟩
  | str s =>
    constructor
    · have hb : ∀ e ∈ categoryEntries patterns inc (tokenize s), 0 ≤ e.2.score :=
        fun e he => (categoryEntries_score_bounds hinc he).1
      have := aggregateOf_bounds hb
      simpa [fallbackAnalysisJS, fallbackTry, fallbackCore] using this
    · intro e he
      simp [fallbackTry] at he

theorem claim_C2_witness :
    (0 ≤ (0.3 : ℚ)) ∧
    ((0 ≤ (fallbackAnalysisJS toxicityPatterns 0.3 toxicitySeverity .nonString).aggregateScore ∧
      (fallbackAnalysisJS toxicityPatterns 0.3 toxicitySeverity .nonString).aggregateScore ≤ 1) ∧
     (∀ e, fallbackTry toxicityPatterns 0.3 toxicitySeverity .nonString = .error e →
       (fallbackAnalysisJS toxicityPatterns 0.3 toxicitySeverity .nonString).severity = "error" ∧
       (fallbackAnalysisJS toxicityPatterns 0.3 toxicitySeverity .nonString).errMsg ≠ none)) :=
  ⟨by norm_num,
   claim_C2 toxicityPatterns 0.3 toxicitySeverity .nonString (by norm_num)⟩

/-- C3: severity is a pure deterministic step function of the aggregate
score, identical across the four concerns: ≥ 0.8 critical, ≥ 0.6 high,
≥ 0.4 medium, ≥ 0.2 low, otherwise none; 0.65 yields high and 0.15 yields
none. -/
theorem claim_C3 :
    (∀ s : ℚ, toxicitySeverity s = biasSeverity s ∧
      toxicitySeverity s = misinfoSeverity s ∧
      toxicitySeverity s = coordinationSeverity s) ∧
    (∀ s : ℚ,
      (toxicitySeverity s = "critical" ↔ 0.8 ≤ s) ∧
      (toxicitySeverity s = "high" ↔ 0.6 ≤ s ∧ s < 0.8) ∧
      (toxicitySeverity s = "medium" ↔ 0.4 ≤ s ∧ s < 0.6) ∧
      (toxicitySeverity s = "low" ↔ 0.2 ≤ s ∧ s < 0.4) ∧
      (toxicitySeverity s = "none" ↔ s < 0.2)) ∧
    toxicitySeverity 0.65 = "high" ∧ toxicitySeverity 0.15 = "none" := by
  refine ⟨fun s => ⟨rfl, rfl, rfl⟩, ?_, ?_, ?_⟩
  · intro s
    simp only [toxicitySeverity]
    split_ifs with h1 h2 h3 h4 <;>
      refine ⟨?_, ?_, ?_, ?_, ?_⟩ <;>
      first
        | (exact iff_of_true rfl (by constructor <;> linarith))
        | (exact iff_of_true rfl (by linarith))
        | (exact iff_of_false (by decide)
            (by rintro ⟨h5, h6⟩ <;> linarith))
        | (exact iff_of_false (by decide) (by intro h5; linarith))
  · norm_num [toxicitySeverity]
  · norm_num [toxicitySeverity]

/-- C4 counterexample: on "earth is flat conspiracy" the lower-cased text
contains the factual-error phrase "earth is flat" (fixed score 0.95), yet the
aggregate score is 0.575 — the mean computation at the end of the fallback
overwrites the factual max — so it is neither at least 0.95 nor even at least
0.8, refuting the claim that the aggregate is at least the fixed score bound
to the phrase. -/
theorem claim_C4_counterexample :
    hasSubstring (lowerChars "earth is flat conspiracy") "earth is flat".data = true ∧
    (misinfoFallback "earth is flat conspiracy").flagged = true ∧
    (misinfoFallback "earth is flat conspiracy").aggregateScore = 0.575 ∧
    ¬(0.8 ≤ (misinfoFallback "earth is flat conspiracy").aggregateScore) ∧
    ¬(0.95 ≤ (misinfoFallback "earth is flat conspiracy").aggregateScore) := by
  have hfcats : misinfoFactualCats (lowerChars "earth is flat conspiracy") =
      [("science", { score := 0.95, matchedTokens := ["earth is flat"],
                     count := 1, correction := some "Earth is spherical" })] := by
    simp +decide [misinfoFactualCats, factualErrors, factualHits]
  have hpc : categoryHits misinfoPatterns (tokenize "earth is flat conspiracy") =
      [("conspiracy_theories", ["conspiracy"])] := by decide
  have hpcats : categoryEntries misinfoPatterns 0.2 (tokenize "earth is flat conspiracy") =
      [("conspiracy_theories", { score := 0.2, matchedTokens := ["conspiracy"],
                                 count := 1 })] := by
    rw [categoryEntries_eq_hits, hpc]
    norm_num
  refine ⟨by decide, ?_, ?_, ?_, ?_⟩ <;>
    simp [misinfoFallback, hfcats, hpcats] <;> norm_num [aggregateOf]

/-- C4 amended: a factual-error phrase contained in the lower-cased text
forces the record flagged, records the factual category with one of the fixed
table scores (all at least 0.8), and pushes a correction recommendation while
the generic misinformation recommendation is suppressed; the aggregate score
is the clamped mean of all category scores, so it can fall below the fixed
score when other categories also match, but on "Paris is in Spain" (the only
matching category) it equals 0.9 and the correction recommendation mentioning
"Paris is in France" is the sole recommendation. -/
theorem claim_C4 :
    (∀ (text : String) (fc : String × List (String × String × ℚ))
       (en : String × String × ℚ),
       fc ∈ factualErrors → en ∈ fc.2 →
       hasSubstring (lowerChars text) en.1.data = true →
       (misinfoFallback text).flagged = true ∧
       ("Factual error detected: " ++ en.2.1) ∈
         (misinfoFallback text).recommendations ∧
       misinfoGenericRec ∉ (misinfoFallback text).recommendations ∧
       ∃ cm : CategoryMatch, (fc.1, cm) ∈ (misinfoFallback text).categories ∧
         0.8 ≤ cm.score) ∧
    ((misinfoFallback "Paris is in Spain").flagged = true ∧
     (misinfoFallback "Paris is in Spain").aggregateScore = 0.9 ∧
     (misinfoFallback "Paris is in Spain").recommendations =
       ["Factual error detected: Paris is in France"]) := by
  constructor
  · intro text fc en hfc hen hsub
    obtain ⟨cm, hcmmem, en2, hen2, hcmscore⟩ :=
      misinfoFactualCats_entry hfc hen hsub
    have hfne : ¬(misinfoFactualCats (lowerChars text)).isEmpty = true := by
      intro hemp
      rw [List.isEmpty_iff] at hemp
      rw [hemp] at hcmmem
      simp at hcmmem
    have henhl : en ∈ misinfoFactualHitList (lowerChars text) := by
      unfold misinfoFactualHitList
      rw [List.mem_flatMap]
      refine ⟨fc, hfc, ?_⟩
      unfold factualHits
      rw [List.mem_filter]
      exact ⟨hen, by simpa using hsub⟩
    refine ⟨?_, ?_, ?_, ?_⟩
    · simp only [misinfoFallback, Bool.or_eq_true]
      left
      simpa using hfne
    · simp only [misinfoFallback]
      rw [List.mem_append]
      left
      rw [List.mem_map]
      exact ⟨en, henhl, rfl⟩
    · simp only [misinfoFallback]
      rw [List.mem_append]
      rintro (hmem | hmem)
      · rw [List.mem_map] at hmem
        obtain ⟨e, hehl, heq⟩ := hmem
        obtain ⟨fc2, hfc2, he2, -⟩ := mem_misinfoFactualHitList hehl
        exact factualRec_ne_generic fc2 hfc2 e he2 heq
      · have hfe : (!(misinfoFactualCats (lowerChars text)).isEmpty) = true := by
          simpa using hfne
        rw [hfe] at hmem
        simp at hmem
    · refine ⟨cm, ?_, ?_⟩
      · simp only [misinfoFallback]
        exact List.mem_append_left _ hcmmem
      · rw [hcmscore]
        exact (factualErrors_score_bounds fc hfc en2 hen2).1
  · have hfcats : misinfoFactualCats (lowerChars "Paris is in Spain") =
        [("geography", { score := 0.9, matchedTokens := ["paris is in spain"],
                         count := 1, correction := some "Paris is in France" })] := by
      simp +decide [misinfoFactualCats, factualErrors, factualHits]
    have hhl : misinfoFactualHitList (lowerChars "Paris is in Spain") =
        [("paris is in spain", "Paris is in France", 0.9)] := by
      simp +decide [misinfoFactualHitList, factualErrors, factualHits]
    have hpc : categoryHits misinfoPatterns (tokenize "Paris is in Spain") = [] := by
      decide
    have hpcats : categoryEntries misinfoPatterns 0.2 (tokenize "Paris is in Spain") = [] := by
      rw [categoryEntries_eq_hits, hpc]
      rfl
    have hagg : aggregateOf
        [("geography", ({ score := 0.9, matchedTokens := ["paris is in spain"],
                          count := 1,
                          correction := some "Paris is in France" } : CategoryMatch))] = 0.9 := by
      norm_num [aggregateOf]
    have hsev : misinfoSeverity 0.9 = "critical" := by norm_num [misinfoSeverity]
    simp [misinfoFallback, hfcats, hhl, hpcats, hagg, hsev]

theorem claim_C4_witness :
    (misinfoFallback "Paris is in Spain").flagged = true ∧
    ("Factual error detected: " ++ "Paris is in France") ∈
      (misinfoFallback "Paris is in Spain").recommendations ∧
    misinfoGenericRec ∉ (misinfoFallback "Paris is in Spain").recommendations ∧
    ∃ cm : CategoryMatch,
      ("geography", cm) ∈ (misinfoFallback "Paris is in Spain").categories ∧
      0.8 ≤ cm.score :=
  claim_C4.1 "Paris is in Spain"
    ("geography",
     [("paris is in spain", "Paris is in France", 0.9),
      ("london is in france", "London is in England/UK", 0.9),
      ("tokyo is in china", "Tokyo is in Japan", 0.9),
      ("moscow is in ukraine", "Moscow is in Russia", 0.9),
      ("berlin is in austria", "Berlin is in Germany", 0.9)])
    ("paris is in spain", "Paris is in France", 0.9)
    (List.mem_cons_self _ _) (List.mem_cons_self _ _) (by decide)

/-- C5: on "you are stupid" the toxicity fallback records exactly the token
"stupid" in the insults category with category score 0.3, aggregate score
0.3, severity "low" and flagged true. -/
theorem claim_C5 :
    (toxicityFallback "you are stupid").categories =
      [("insults", { score := 0.3, matchedTokens := ["stupid"], count := 1 })] ∧
    (toxicityFallback "you are stupid").aggregateScore = 0.3 ∧
    (toxicityFallback "you are stupid").severity = "low" ∧
    (toxicityFallback "you are stupid").flagged = true := by
  have hhits : categoryHits toxicityPatterns (tokenize "you are stupid") =
      [("insults", ["stupid"])] := by decide
  have hcats : categoryEntries toxicityPatterns 0.3 (tokenize "you are stupid") =
      [("insults", { score := 0.3, matchedTokens := ["stupid"], count := 1 })] := by
    rw [categoryEntries_eq_hits, hhits]
    norm_num
  have hagg : aggregateOf
      [("insults", ({ score := 0.3, matchedTokens := ["stupid"],
                      count := 1 } : CategoryMatch))] = 0.3 := by
    norm_num [aggregateOf]
  have hsev : toxicitySeverity 0.3 = "low" := by norm_num [toxicitySeverity]
  simp [toxicityFallback, fallbackCore, hcats, hagg, hsev]

/-- C6: whenever the remote call of the analysis wrapper fails — missing
credential, transport error, or non-success HTTP status — `analyze` returns,
after its single attempt and with no retry, exactly the record the fallback
scorer alone produces for the same text (timestamps are not modelled). -/
theorem claim_C6 (env : Env) (text : String)
    (h : env.apiKeyPresent = false ∨ env.remote = .transportError ∨
         ∃ status, env.remote = .httpError status) :
    analyze env text = toxicityFallback text := by
  unfold analyze
  rcases h with h | h | ⟨status, h⟩
  · simp [h]
  · cases hk : env.apiKeyPresent <;> simp [h, hk]
  · cases hk : env.apiKeyPresent <;> simp [h, hk]

theorem claim_C6_witness :
    analyze { apiKeyPresent := true, remote := .httpError 500 } "you are stupid" =
      toxicityFallback "you are stupid" :=
  claim_C6 { apiKeyPresent := true, remote := .httpError 500 } "you are stupid"
    (Or.inr (Or.inr ⟨500, rfl⟩))

/-- C7 counterexample: the error path of the toxicity analyzer returns
severity "error" (≠ "none") with flagged false, and the remote-parse path
copies flagged and severity independently, so a reply with isToxic true and
severity "none" yields flagged true with severity "none" — both violate
flagged == (severity ≠ none). -/
theorem claim_C7_counterexample :
    ((fallbackAnalysisJS toxicityPatterns 0.3 toxicitySeverity .nonString).severity ≠ "none" ∧
     (fallbackAnalysisJS toxicityPatterns 0.3 toxicitySeverity .nonString).flagged = false) ∧
    ((parseAIResponse (.parsed { isToxic := some true, severity := some "none" })).flagged = true ∧
     (parseAIResponse (.parsed { isToxic := some true, severity := some "none" })).severity = "none") :=
  ⟨⟨by decide, rfl⟩, ⟨rfl, rfl⟩⟩

/-- C7 amended: every record produced by the success path of the four
concern fallback scorers satisfies flagged == (severity ≠ "none"); the error
path and the remote-parse path do not maintain the invariant (see the
counterexample). -/
theorem claim_C7 (text : String) :
    ((toxicityFallback text).flagged = true ↔
      (toxicityFallback text).severity ≠ "none") ∧
    ((biasFallback text).flagged = true ↔
      (biasFallback text).severity ≠ "none") ∧
    ((coordinationFallback text).flagged = true ↔
      (coordinationFallback text).severity ≠ "none") ∧
    ((misinfoFallback text).flagged = true ↔
      (misinfoFallback text).severity ≠ "none") := by
  refine ⟨?_, ?_, ?_, misinfo_flagged_iff text⟩ <;>
    simp [toxicityFallback, biasFallback, coordinationFallback, fallbackCore,
      bne_iff_ne]

/-- C8: the overall risk is the highest severity bucket with a non-zero
count, preferring critical over high over medium over low, and "none" when
all counts are zero; {0,1,2,0} yields "high". -/
theorem claim_C8 :
    (∀ s : Summary,
      (calculateOverallRisk s = "critical" ↔ 0 < s.criticalIssues) ∧
      (calculateOverallRisk s = "high" ↔
        s.criticalIssues = 0 ∧ 0 < s.highIssues) ∧
      (calculateOverallRisk s = "medium" ↔
        s.criticalIssues = 0 ∧ s.highIssues = 0 ∧ 0 < s.mediumIssues) ∧
      (calculateOverallRisk s = "low" ↔
        s.criticalIssues = 0 ∧ s.highIssues = 0 ∧ s.mediumIssues = 0 ∧
        0 < s.lowIssues) ∧
      (calculateOverallRisk s = "none" ↔
        s.criticalIssues = 0 ∧ s.highIssues = 0 ∧ s.mediumIssues = 0 ∧
        s.lowIssues = 0)) ∧
    calculateOverallRisk ⟨0, 1, 2, 0⟩ = "high" := by
  constructor
  · intro s
    obtain ⟨c, h, m, l⟩ := s
    simp only [calculateOverallRisk]
    split_ifs with h1 h2 h3 h4 <;>
      refine ⟨?_, ?_, ?_, ?_, ?_⟩ <;>
      first
        | (exact iff_of_true rfl (by omega))
        | (exact iff_of_false (by decide) (by omega))
  · decide

/-- C9: appending further whitespace-separated occurrences of a keyword
already matched in the text never decreases the category score computed by
the fallback per-category loop (the score stays capped at 1.0). -/
theorem claim_C9 (keywords : List String) (inc : ℚ) (text k : String)
    (n : Nat) (hinc : 0 ≤ inc) (hk : k ∈ keywords)
    (hmatched : ∃ w ∈ tokenize text, strContainsSub w k = true) :
    categoryScore keywords inc text ≤
      categoryScore keywords inc (appendOcc text k n) := by
  clear hk hmatched
  induction n generalizing text with
  | zero => exact le_refl _
  | succ n ih =>
    exact le_trans (categoryScore_le_append keywords inc hinc text k)
      (ih (text ++ " " ++ k))

theorem claim_C9_witness :
    ((0:ℚ) ≤ 0.3 ∧
     "stupid" ∈ ["stupid", "idiot", "dumb", "fool", "moron", "imbecile",
                 "retard", "cretin"] ∧
     ∃ w ∈ tokenize "you are stupid", strContainsSub w "stupid" = true) ∧
    categoryScore ["stupid", "idiot", "dumb", "fool", "moron", "imbecile",
                   "retard", "cretin"] 0.3 "you are stupid" ≤
      categoryScore ["stupid", "idiot", "dumb", "fool", "moron", "imbecile",
                     "retard", "cretin"] 0.3
        (appendOcc "you are stupid" "stupid" 2) :=
  ⟨⟨by norm_num, by decide, ⟨"stupid", by decide, by decide⟩⟩,
   claim_C9 _ 0.3 "you are stupid" "stupid" 2 (by norm_num) (by decide)
     ⟨"stupid", by decide, by decide⟩⟩

/-- C10: in the fallback per-category loop each whitespace-split token
occurrence contributes at most one increment to a category — the match list
is the filtered token list, the count is its length (bounded by the number
of tokens), and the score is min(inc·count, 1); the token "stupidiot"
contains both the keywords "stupid" and "idiot" of the insults category yet
is counted once with score 0.3. -/
theorem claim_C10 :
    (∀ (patterns : List (String × List String)) (inc : ℚ) (sevF : ℚ → String)
       (text : String) (e : String × CategoryMatch),
       e ∈ (fallbackCore patterns inc sevF text).categories →
       ∃ p ∈ patterns, e.1 = p.1 ∧
         e.2.matchedTokens = (tokenize text).filter (tokenMatches p.2) ∧
         e.2.count = e.2.matchedTokens.length ∧
         e.2.count ≤ (tokenize text).length ∧
         e.2.score = min (inc * e.2.count) 1) ∧
    ((toxicityFallback "stupidiot").categories =
       [("insults", { score := 0.3, matchedTokens := ["stupidiot"],
                      count := 1 })] ∧
     strContainsSub "stupidiot" "stupid" = true ∧
     strContainsSub "stupidiot" "idiot" = true) := by
  constructor
  · intro patterns inc sevF text e he
    have he2 : e ∈ categoryEntries patterns inc (tokenize text) := he
    obtain ⟨p, hp, h1, h2, h3, h4, -, -⟩ := mem_categoryEntries he2
    refine ⟨p, hp, h1, h2, h3, ?_, h4⟩
    rw [h3, h2]
    exact List.length_filter_le _ _
  · refine ⟨?_, by decide, by decide⟩
    have hhits : categoryHits toxicityPatterns (tokenize "stupidiot") =
        [("insults", ["stupidiot"])] := by decide
    have hcats : categoryEntries toxicityPatterns 0.3 (tokenize "stupidiot") =
        [("insults", { score := 0.3, matchedTokens := ["stupidiot"],
                       count := 1 })] := by
      rw [categoryEntries_eq_hits, hhits]
      norm_num
    simp [toxicityFallback, fallbackCore, hcats]

theorem claim_C10_witness :
    ∃ p ∈ toxicityPatterns, ("insults" : String) = p.1 ∧
      (["stupid"] : List String) =
        (tokenize "you are stupid").filter (tokenMatches p.2) ∧
      (1 : Nat) = (["stupid"] : List String).length ∧
      (1 : Nat) ≤ (tokenize "you are stupid").length ∧
      (0.3 : ℚ) = min (0.3 * ((1 : Nat) : ℚ)) 1 := by
  apply claim_C10.1 toxicityPatterns 0.3 toxicitySeverity "you are stupid"
    ("insults", { score := 0.3, matchedTokens := ["stupid"], count := 1 })
  have hhits : categoryHits toxicityPatterns (tokenize "you are stupid") =
      [("insults", ["stupid"])] := by decide
  have hcats : categoryEntries toxicityPatterns 0.3 (tokenize "you are stupid") =
      [("insults", { score := 0.3, matchedTokens := ["stupid"], count := 1 })] := by
    rw [categoryEntries_eq_hits, hhits]
    norm_num
  show ("insults", ({ score := 0.3, matchedTokens := ["stupid"],
                      count := 1 } : CategoryMatch)) ∈
    categoryEntries toxicityPatterns 0.3 (tokenize "you are stupid")
  rw [hcats]
  exact List.mem_singleton.mpr rfl

end Emakia
